import Mathlib

/-!
Shallow embedding of the `Manufacturing-Optim` supply-chain analytics
engine (`src/analyzer.py`, with the derived-score columns of
`src/dashboard.py`).

A pandas `DataFrame` of the input CSV is modelled as a `List Record`,
one `Record` per row, each row implicitly carrying its positional index
where pandas semantics needs it (`List.enum`).  Numeric cells are `ℚ`
(the float arithmetic of the source involves only sums, means, divisions
and comparisons on CSV-given decimals, which are exact in `ℚ`); string
cells are `String`.

pandas behaviours embedded here, each noted at its definition:
  * `groupby(k)` (default `sort=True`) produces the distinct key values
    in ascending order, each group being the rows whose key equals it in
    original order;
  * `nlargest(n, c)` (default `keep='first'`) is a stable descending
    sort by `c` followed by `take n`;
  * boolean columns sum as 0/1;
  * `Series.std()` uses the sample standard deviation (`ddof=1`), which
    is `NaN` for a single row, and a comparison against `NaN` is false;
  * `read_csv` performs no schema validation: a missing column errors
    (`KeyError`) only when an analysis method subscripts it, and a
    non-numeric cell in a numeric column loads as a string (the column
    becomes `object` dtype), erroring (`TypeError`) only when compared
    to a number.
-/

namespace SupplyChain

/-- Arithmetic mean of a list of rationals, `Series.mean()`: sum divided
by length (empty lists never reach a mean in any proof below). -/
def meanQ (l : List ℚ) : ℚ := l.sum / l.length

/-- `round(2)` of pandas, as rounding half away from zero to two decimal
places.  numpy rounds half to even; the two differ only on values that
are an exact half-cent, and no theorem below observes a rounded digit. -/
def round2 (q : ℚ) : ℚ := (round (q * 100) : ℤ) / 100

/-- Minimum of a list, `agg 'min'` (0 on the empty list, which no group
ever is). -/
def listMin : List ℚ → ℚ
  | [] => 0
  | x :: xs => xs.foldl min x

/-- Maximum of a list, `agg 'max'` (0 on the empty list, which no group
ever is). -/
def listMax : List ℚ → ℚ
  | [] => 0
  | x :: xs => xs.foldl max x

/-- First-appearance deduplication worker: drops any element already in
`seen`, keeps the first copy of each remaining value. -/
def dedupFirstAux [DecidableEq α] (seen : List α) : List α → List α
  | [] => []
  | x :: xs =>
    if x ∈ seen then dedupFirstAux seen xs
    else x :: dedupFirstAux (x :: seen) xs

/-- Distinct values of a column in order of first appearance. -/
def dedupFirst [DecidableEq α] (l : List α) : List α := dedupFirstAux [] l

/-- Strict lexicographic comparison of character lists by Unicode code
point, the order Python (and pandas' key sort) uses on `str`. -/
def charListLtB : List Char → List Char → Bool
  | [], [] => false
  | [], _ :: _ => true
  | _ :: _, [] => false
  | c :: cs, d :: ds =>
    if c.toNat < d.toNat then true
    else if d.toNat < c.toNat then false
    else charListLtB cs ds

/-- Strict string comparison by code points. -/
def strLtB (a b : String) : Bool := charListLtB a.data b.data

/-- Non-strict string comparison: `a ≤ b` as not `b < a`. -/
def strLeB (a b : String) : Bool := !(strLtB b a)

/-- Strict lexicographic comparison on pairs of strings, the order of a
two-column `groupby` key. -/
def pairLtB (a b : String × String) : Bool :=
  if strLtB a.1 b.1 then true
  else if strLtB b.1 a.1 then false
  else strLtB a.2 b.2

/-- Non-strict comparison on pairs of strings. -/
def pairLeB (a b : String × String) : Bool := !(pairLtB b a)

/-- Insert into a list sorted by the boolean comparator `le`. -/
def insertLe (le : α → α → Bool) (x : α) : List α → List α
  | [] => [x]
  | y :: ys => if le x y then x :: y :: ys else y :: insertLe le x ys

/-- Insertion sort by the boolean comparator `le`. -/
def insortLe (le : α → α → Bool) : List α → List α
  | [] => []
  | x :: xs => insertLe le x (insortLe le xs)

/-- Grouping keys of `groupby` with its default `sort=True`: the
distinct values of the key column, in ascending `le` order. -/
def groupKeysBy [DecidableEq α] (le : α → α → Bool) (vals : List α) : List α :=
  insortLe le (dedupFirst vals)

/-- `Series.clip(lo, hi)`. -/
def clipQ (lo hi x : ℚ) : ℚ := max lo (min hi x)

/-- One row of the supply-chain CSV, with the columns `analyzer.py` and
`dashboard.py` read.  The dataset has both a `'Lead time'` and a
`'Lead times'` column; the risk scorer and the summary read
`'Lead time'`, the stock-alert table reads `'Lead times'`. -/
structure Record where
  sku : String
  productType : String
  supplierName : String
  location : String
  revenueGenerated : ℚ
  numberSold : ℚ
  stockLevels : ℚ
  leadTimes : ℚ
  leadTime : ℚ
  defectRates : ℚ
  manufacturingCosts : ℚ
  productionVolumes : ℚ
  inspectionResults : String
  shippingCarriers : String
  shippingTimes : ℚ
  shippingCosts : ℚ
  transportationModes : String
  routes : String
  costs : ℚ
  availability : ℚ
  deriving Repr, DecidableEq

/-- The rows of one `groupby` group: the rows whose key column equals
`k`, in original order. -/
def groupRows [DecidableEq α] (rows : List Record) (f : Record → α) (k : α) : List Record :=
  rows.filter (fun r => f r = k)

/-- One row of the risk-factor table built by `get_risk_assessment`. -/
structure RiskRow where
  sku : String
  stockRisk : Bool
  leadTimeRisk : Bool
  qualityRisk : Bool
  costRisk : Bool
  totalRiskScore : ℕ
  deriving Repr, DecidableEq

/-- The risk-factor row of one record: the four boolean predicates of
`get_risk_assessment` (strict comparisons, thresholds 20 / 20 / 3 and
the dataset mean `μ` of `'Manufacturing costs'`) and their 0/1 sum
(`pandas` sums a boolean frame along `axis=1` as 0/1). -/
def mkRiskRow (μ : ℚ) (r : Record) : RiskRow :=
  let s := decide (r.stockLevels < 20)
  let l := decide (20 < r.leadTime)
  let q := decide (3 < r.defectRates)
  let c := decide (μ < r.manufacturingCosts)
  { sku := r.sku
    stockRisk := s
    leadTimeRisk := l
    qualityRisk := q
    costRisk := c
    totalRiskScore := s.toNat + l.toNat + q.toNat + c.toNat }

/-- `get_risk_assessment`: the risk-factor table of every record,
filtered to the rows with `Total_Risk_Score >= 2` (a pandas boolean
filter keeps original row order). -/
def get_risk_assessment (rows : List Record) : List RiskRow :=
  let μ := meanQ (rows.map Record.manufacturingCosts)
  (rows.map (mkRiskRow μ)).filter (fun x => 2 ≤ x.totalRiskScore)

/-- One recommendation entry of `generate_recommendations`. -/
structure Advice where
  area : String
  issue : String
  act : String
  priority : String
  deriving Repr, DecidableEq

/-- The rows with `'Stock levels' < 20` (`low_stock`). -/
def lowStockRows (rows : List Record) : List Record :=
  rows.filter (fun r => r.stockLevels < 20)

/-- The rows with `'Inspection results' == 'Fail'` (`quality_issues`). -/
def failedRows (rows : List Record) : List Record :=
  rows.filter (fun r => r.inspectionResults = "Fail")

/-- Sum of squared deviations from the mean, the numerator of the
sample variance. -/
def devSq (l : List ℚ) : ℚ := (l.map (fun x => (x - meanQ l) ^ 2)).sum

/-- The comparison `c > mean + std` over the `'Costs'` column, written
without a square root: pandas `std()` is `sqrt(devSq / (n - 1))`
(`ddof=1`), non-negative, so for `n ≥ 2` the comparison is equivalent to
`c > mean` together with `(c - mean)^2 * (n - 1) > devSq`; for `n ≤ 1`
`std()` is `NaN` and the pandas comparison is false. -/
def costOutlierB (rows : List Record) (c : ℚ) : Bool :=
  let cs := rows.map Record.costs
  let n := cs.length
  if n ≤ 1 then false
  else decide (meanQ cs < c) && decide (devSq cs < (c - meanQ cs) ^ 2 * ((n : ℚ) - 1))

/-- The rows whose `'Costs'` exceed `mean + std` (`high_cost_routes`). -/
def highCostRows (rows : List Record) : List Record :=
  rows.filter (fun r => costOutlierB rows r.costs)

/-- `generate_recommendations`: the three rules evaluated independently
in order, each firing exactly when its matching row set is non-empty,
its issue text embedding that set's size. -/
def generate_recommendations (rows : List Record) : List Advice :=
  let lows := lowStockRows rows
  let fails := failedRows rows
  let highs := highCostRows rows
  (if lows.isEmpty then [] else
    [{ area := "Inventory"
       issue := "Low stock alerts for " ++ toString lows.length ++ " SKUs"
       act := "Reorder stocks for affected SKUs"
       priority := "High" }]) ++
  (if fails.isEmpty then [] else
    [{ area := "Quality"
       issue := "Quality failures in " ++ toString fails.length ++ " shipments"
       act := "Review supplier quality control processes"
       priority := "High" }]) ++
  (if highs.isEmpty then [] else
    [{ area := "Logistics"
       issue := "High shipping costs on " ++ toString highs.length ++ " routes"
       act := "Evaluate alternative shipping routes or carriers"
       priority := "Medium" }])

/-- One row of `category_performance`: `groupby('Product type')` with
sum of revenue, sum of units sold, mean stock level, mean defect rate,
each rounded to two decimals. -/
structure CategoryRow where
  productType : String
  revenueSum : ℚ
  soldSum : ℚ
  stockMean : ℚ
  defectMean : ℚ
  deriving Repr, DecidableEq

/-- `category_performance` of `analyze_product_performance`. -/
def category_performance (rows : List Record) : List CategoryRow :=
  (groupKeysBy strLeB (rows.map Record.productType)).map (fun k =>
    let g := groupRows rows Record.productType k
    { productType := k
      revenueSum := round2 (g.map Record.revenueGenerated).sum
      soldSum := round2 (g.map Record.numberSold).sum
      stockMean := round2 (meanQ (g.map Record.stockLevels))
      defectMean := round2 (meanQ (g.map Record.defectRates)) })

/-- One row of `top_revenue_products`: the four projected columns. -/
structure TopRow where
  sku : String
  productType : String
  revenueGenerated : ℚ
  numberSold : ℚ
  deriving Repr, DecidableEq

/-- Projection of a record onto the `top_revenue_products` columns. -/
def toTopRow (r : Record) : TopRow :=
  { sku := r.sku
    productType := r.productType
    revenueGenerated := r.revenueGenerated
    numberSold := r.numberSold }

/-- Insert an indexed row into a list sorted by strictly descending
`'Revenue generated'`: the row moves past exactly the rows it strictly
beats, so equal revenues keep their relative order. -/
def insertTopRev (x : ℕ × Record) : List (ℕ × Record) → List (ℕ × Record)
  | [] => [x]
  | y :: ys =>
    if y.2.revenueGenerated < x.2.revenueGenerated then x :: y :: ys
    else y :: insertTopRev x ys

/-- Stable descending sort by `'Revenue generated'`, inserting the rows
in original order (left fold), so ties stay in original row order. -/
def sortRevDescAux : List (ℕ × Record) → List (ℕ × Record) → List (ℕ × Record)
  | acc, [] => acc
  | acc, x :: xs => sortRevDescAux (insertTopRev x acc) xs

/-- `nlargest(10, 'Revenue generated')` with its default `keep='first'`:
the first ten rows of the stable descending sort, each still carrying
its original dataframe index. -/
def nlargestRev (rows : List Record) : List (ℕ × Record) :=
  (sortRevDescAux [] rows.enum).take 10

/-- `top_revenue_products` of `analyze_product_performance`. -/
def top_revenue_products (rows : List Record) : List (ℕ × TopRow) :=
  (nlargestRev rows).map (fun p => (p.1, toTopRow p.2))

/-- One row of `stock_alerts`: the four projected columns. -/
structure StockAlertRow where
  sku : String
  productType : String
  stockLevels : ℚ
  leadTimes : ℚ
  deriving Repr, DecidableEq

/-- `stock_alerts` of `analyze_product_performance`: the rows with
`'Stock levels' < 20`, in original order, with original indices. -/
def stock_alerts (rows : List Record) : List (ℕ × StockAlertRow) :=
  (rows.enum.filter (fun p => decide (p.2.stockLevels < 20))).map (fun p =>
    (p.1, { sku := p.2.sku
            productType := p.2.productType
            stockLevels := p.2.stockLevels
            leadTimes := p.2.leadTimes }))

/-- The three tables `analyze_product_performance` stashes on
`self.product_metrics` (a three-key Python dict). -/
structure ProductMetrics where
  category_performance : List CategoryRow
  top_revenue_products : List (ℕ × TopRow)
  stock_alerts : List (ℕ × StockAlertRow)
  deriving Repr, DecidableEq

/-- The value `analyze_product_performance` computes from the data. -/
def computeProductMetrics (rows : List Record) : ProductMetrics :=
  { category_performance := category_performance rows
    top_revenue_products := top_revenue_products rows
    stock_alerts := stock_alerts rows }

/-- One row of `supplier_performance`: `groupby('Supplier name')` with
mean lead time, mean manufacturing cost, mean defect rate and summed
production volume, rounded to two decimals. -/
structure SupplierRow where
  supplierName : String
  leadTimeMean : ℚ
  mfgCostMean : ℚ
  defectMean : ℚ
  productionSum : ℚ
  deriving Repr, DecidableEq

/-- `supplier_performance` of `analyze_supplier_performance`. -/
def supplier_performance (rows : List Record) : List SupplierRow :=
  (groupKeysBy strLeB (rows.map Record.supplierName)).map (fun k =>
    let g := groupRows rows Record.supplierName k
    { supplierName := k
      leadTimeMean := round2 (meanQ (g.map Record.leadTime))
      mfgCostMean := round2 (meanQ (g.map Record.manufacturingCosts))
      defectMean := round2 (meanQ (g.map Record.defectRates))
      productionSum := round2 (g.map Record.productionVolumes).sum })

/-- `supplier_locations`: `groupby(['Supplier name', 'Location']).size()`,
the shipment count per (supplier, location) pair. -/
def supplier_locations (rows : List Record) : List ((String × String) × ℕ) :=
  (groupKeysBy pairLeB (rows.map (fun r => (r.supplierName, r.location)))).map (fun k =>
    (k, (rows.filter (fun r => (r.supplierName, r.location) = k)).length))

/-- One row of `quality_issues`: the three projected columns. -/
structure QualityRow where
  supplierName : String
  sku : String
  defectRates : ℚ
  deriving Repr, DecidableEq

/-- `quality_issues` of `analyze_supplier_performance`: the rows with
`'Inspection results' == 'Fail'`, in original order. -/
def quality_issues (rows : List Record) : List (ℕ × QualityRow) :=
  (rows.enum.filter (fun p => decide (p.2.inspectionResults = "Fail"))).map (fun p =>
    (p.1, { supplierName := p.2.supplierName
            sku := p.2.sku
            defectRates := p.2.defectRates }))

/-- The three tables of `analyze_supplier_performance`. -/
structure SupplierMetrics where
  supplier_performance : List SupplierRow
  supplier_locations : List ((String × String) × ℕ)
  quality_issues : List (ℕ × QualityRow)
  deriving Repr, DecidableEq

/-- The value `analyze_supplier_performance` computes from the data. -/
def computeSupplierMetrics (rows : List Record) : SupplierMetrics :=
  { supplier_performance := supplier_performance rows
    supplier_locations := supplier_locations rows
    quality_issues := quality_issues rows }

/-- One row of `carrier_performance`: `groupby('Shipping carriers')`
with mean shipping time, mean shipping cost and the count of
`'Number of products sold'` cells (the group size), rounded. -/
structure CarrierRow where
  carrier : String
  shipTimeMean : ℚ
  shipCostMean : ℚ
  soldCount : ℕ
  deriving Repr, DecidableEq

/-- `carrier_performance` of `analyze_logistics`. -/
def carrier_performance (rows : List Record) : List CarrierRow :=
  (groupKeysBy strLeB (rows.map Record.shippingCarriers)).map (fun k =>
    let g := groupRows rows Record.shippingCarriers k
    { carrier := k
      shipTimeMean := round2 (meanQ (g.map Record.shippingTimes))
      shipCostMean := round2 (meanQ (g.map Record.shippingCosts))
      soldCount := g.length })

/-- One row of `transport_cost_analysis`:
`groupby(['Transportation modes', 'Routes'])` with mean cost and mean
shipping time, rounded. -/
structure TransportCostRow where
  mode : String
  route : String
  costMean : ℚ
  shipTimeMean : ℚ
  deriving Repr, DecidableEq

/-- `transport_cost_analysis` of `analyze_logistics`. -/
def transport_cost_analysis (rows : List Record) : List TransportCostRow :=
  (groupKeysBy pairLeB (rows.map (fun r => (r.transportationModes, r.routes)))).map (fun k =>
    let g := rows.filter (fun r => (r.transportationModes, r.routes) = k)
    { mode := k.1
      route := k.2
      costMean := round2 (meanQ (g.map Record.costs))
      shipTimeMean := round2 (meanQ (g.map Record.shippingTimes)) })

/-- One row of `route_efficiency`: `groupby('Routes')` with mean, min
and max shipping time and mean cost, rounded. -/
structure RouteRow where
  route : String
  shipTimeMean : ℚ
  shipTimeMin : ℚ
  shipTimeMax : ℚ
  costMean : ℚ
  deriving Repr, DecidableEq

/-- `route_efficiency` of `analyze_logistics`. -/
def route_efficiency (rows : List Record) : List RouteRow :=
  (groupKeysBy strLeB (rows.map Record.routes)).map (fun k =>
    let g := groupRows rows Record.routes k
    { route := k
      shipTimeMean := round2 (meanQ (g.map Record.shippingTimes))
      shipTimeMin := round2 (listMin (g.map Record.shippingTimes))
      shipTimeMax := round2 (listMax (g.map Record.shippingTimes))
      costMean := round2 (meanQ (g.map Record.costs)) })

/-- The three tables of `analyze_logistics`. -/
structure LogisticsMetrics where
  carrier_performance : List CarrierRow
  transport_cost_analysis : List TransportCostRow
  route_efficiency : List RouteRow
  deriving Repr, DecidableEq

/-- The value `analyze_logistics` computes from the data. -/
def computeLogisticsMetrics (rows : List Record) : LogisticsMetrics :=
  { carrier_performance := carrier_performance rows
    transport_cost_analysis := transport_cost_analysis rows
    route_efficiency := route_efficiency rows }

/-- The `SupplyChainAnalyzer` instance: the loaded table plus the three
derived-table slots, each `None` until its analysis method runs. -/
structure AnalyzerState where
  data : List Record
  product_metrics : Option ProductMetrics
  supplier_metrics : Option SupplierMetrics
  logistics_metrics : Option LogisticsMetrics
  deriving Repr, DecidableEq

/-- A freshly constructed analyzer: data loaded, all three slots
`None` (`__init__`). -/
def initAnalyzer (rows : List Record) : AnalyzerState :=
  { data := rows
    product_metrics := none
    supplier_metrics := none
    logistics_metrics := none }

/-- `analyze_product_performance`: recomputes and overwrites its own
slot, touching nothing else. -/
def analyze_product_performance (s : AnalyzerState) : AnalyzerState :=
  { s with product_metrics := some (computeProductMetrics s.data) }

/-- `analyze_supplier_performance`: recomputes and overwrites its own
slot, touching nothing else. -/
def analyze_supplier_performance (s : AnalyzerState) : AnalyzerState :=
  { s with supplier_metrics := some (computeSupplierMetrics s.data) }

/-- `analyze_logistics`: recomputes and overwrites its own slot,
touching nothing else. -/
def analyze_logistics (s : AnalyzerState) : AnalyzerState :=
  { s with logistics_metrics := some (computeLogisticsMetrics s.data) }

/-- `get_risk_assessment` as the method is at the interface: its return
value together with the instance it leaves behind (the body only reads
`self.data`, so the instance is unchanged). -/
def get_risk_assessment_m (s : AnalyzerState) : List RiskRow × AnalyzerState :=
  (get_risk_assessment s.data, s)

/-- `generate_recommendations` as the method is at the interface: its
return value together with the unchanged instance. -/
def generate_recommendations_m (s : AnalyzerState) : List Advice × AnalyzerState :=
  (generate_recommendations s.data, s)

/-- The four scalar `overall_metrics` of `generate_summary_report`. -/
structure OverallMetrics where
  totalRevenue : ℚ
  totalUnitsSold : ℚ
  averageDefectRate : ℚ
  averageLeadTime : ℚ
  deriving Repr, DecidableEq

/-- `generate_summary_report`'s output object. -/
structure SummaryReport where
  overall_metrics : OverallMetrics
  product_performance : Option ProductMetrics
  supplier_performance : Option SupplierMetrics
  logistics_performance : Option LogisticsMetrics
  deriving Repr, DecidableEq

/-- Python truthiness of a stored `product_metrics` value: the method
always stores a dict literal with three keys, and a non-empty dict is
truthy whatever its values, so this is constantly `true`. -/
def pmTruthy (_ : ProductMetrics) : Bool := true

/-- Python truthiness of a stored `supplier_metrics` value (a three-key
dict, always truthy). -/
def smTruthy (_ : SupplierMetrics) : Bool := true

/-- Python truthiness of a stored `logistics_metrics` value (a
three-key dict, always truthy). -/
def lmTruthy (_ : LogisticsMetrics) : Bool := true

/-- `x if x else None`: keeps a stored value exactly when it is truthy,
`None` otherwise (and `None` itself is falsy). -/
def truthyOrNone (truthy : α → Bool) : Option α → Option α
  | none => none
  | some d => if truthy d then some d else none

/-- `generate_summary_report`: the four overall scalars from the data,
and each aggregation slot passed through `x if x else None`. -/
def generate_summary_report (s : AnalyzerState) : SummaryReport :=
  { overall_metrics :=
      { totalRevenue := (s.data.map Record.revenueGenerated).sum
        totalUnitsSold := (s.data.map Record.numberSold).sum
        averageDefectRate := meanQ (s.data.map Record.defectRates)
        averageLeadTime := meanQ (s.data.map Record.leadTime) }
    product_performance := truthyOrNone pmTruthy s.product_metrics
    supplier_performance := truthyOrNone smTruthy s.supplier_metrics
    logistics_performance := truthyOrNone lmTruthy s.logistics_metrics }

/-- The engine's state-changing operations, for reasoning about which
call sequences leave which slots computed. -/
inductive AnalyzerOp where
  | product
  | supplier
  | logistics
  | risk
  | recommend
  deriving Repr, DecidableEq

/-- One method call on the instance. -/
def stepOp (s : AnalyzerState) : AnalyzerOp → AnalyzerState
  | AnalyzerOp.product => analyze_product_performance s
  | AnalyzerOp.supplier => analyze_supplier_performance s
  | AnalyzerOp.logistics => analyze_logistics s
  | AnalyzerOp.risk => (get_risk_assessment_m s).2
  | AnalyzerOp.recommend => (generate_recommendations_m s).2

/-- A sequence of method calls on the instance. -/
def runOps (s : AnalyzerState) : List AnalyzerOp → AnalyzerState
  | [] => s
  | op :: ops => runOps (stepOp s op) ops

/-- `dashboard.py`'s derived column `efficiency_score`:
`(100 - defect_rate * 20 - lead_time / 30 * 100).clip(0, 100)`.  Its
only division is by the constant 30, so the float result is always
finite and the exact `ℚ` value is faithful. -/
def efficiency_score (r : Record) : ℚ :=
  clipQ 0 100 (100 - r.defectRates * 20 - r.leadTime / 30 * 100)

/-- The value of one float cell of a derived dashboard column: a
finite number, a signed infinity, or `NaN`. -/
inductive FloatQ where
  | nan
  | posInf
  | negInf
  | val (q : ℚ)
  deriving Repr, DecidableEq

/-- Float division as numpy/pandas perform it on a Series: exact where
the divisor is non-zero (the CSV's decimal values stay far inside
float range), `+inf` or `-inf` for a non-zero numerator over zero, and
`NaN` for zero over zero. -/
def divQ (a b : ℚ) : FloatQ :=
  if b = 0 then
    if 0 < a then FloatQ.posInf
    else if a < 0 then FloatQ.negInf
    else FloatQ.nan
  else FloatQ.val (a / b)

/-- `Series.clip(lo, hi)` on a float cell: finite values clamp into
the interval, `+inf` clamps to `hi`, `-inf` to `lo`, and `NaN`
propagates — clip does not replace it. -/
def clipF (lo hi : ℚ) : FloatQ → FloatQ
  | FloatQ.nan => FloatQ.nan
  | FloatQ.posInf => FloatQ.val hi
  | FloatQ.negInf => FloatQ.val lo
  | FloatQ.val q => FloatQ.val (clipQ lo hi q)

/-- `dashboard.py`'s derived column `cost_effectiveness`:
`(revenue / manufacturing_cost).clip(0, 100)`, in float semantics: a
zero manufacturing cost makes the division `±inf` (clamped by clip) or
`NaN` (propagated by clip) depending on the numerator. -/
def cost_effectiveness (r : Record) : FloatQ :=
  clipF 0 100 (divQ r.revenueGenerated r.manufacturingCosts)

/-- The dashboard's per-record row after the two derived columns are
added: the original record is untouched, the scores sit beside it. -/
def withDerivedScores (r : Record) : Record × ℚ × FloatQ :=
  (r, efficiency_score r, cost_effectiveness r)

/-- One CSV cell as `read_csv` stores it: a parsed number, or the raw
text when the cell is not numeric (the column then has `object` dtype —
the cell is NOT coerced, silently or otherwise). -/
inductive Cell where
  | num : ℚ → Cell
  | str : String → Cell
  deriving Repr, DecidableEq

/-- A parseable CSV file: its header row and its cell rows. -/
structure CSVFile where
  header : List String
  cells : List (List Cell)
  deriving Repr, DecidableEq

/-- `pd.read_csv` as `__init__` calls it: `none` stands for a missing
or unreadable path and raises (`FileNotFoundError`); any present,
parseable file loads as is — `read_csv` checks no required column and
rejects no malformed numeric cell. -/
def read_csv : Option CSVFile → Except String CSVFile
  | none => Except.error "FileNotFoundError"
  | some f => Except.ok f

/-- Whether a load attempt succeeded. -/
def loadOk : Except String CSVFile → Bool
  | Except.ok _ => true
  | Except.error _ => false

/-- Column subscription `self.data[c]`, as the analysis methods do it:
a missing column raises `KeyError` there, at analysis time. -/
def getCol (f : CSVFile) (c : String) : Except String (List Cell) :=
  match f.header.findIdx? (fun h => h == c) with
  | none => Except.error ("KeyError: " ++ c)
  | some i => Except.ok (f.cells.map (fun row => row.getD i (Cell.str "")))

/-- A numeric comparison on one loaded cell: comparing a string cell of
an `object` column against a number raises `TypeError`. -/
def cellLt (c : Cell) (q : ℚ) : Except String Bool :=
  match c with
  | Cell.num x => Except.ok (decide (x < q))
  | Cell.str _ => Except.error "TypeError"

/-- The first column access `get_risk_assessment` performs on a raw
loaded file: subscript `'Stock levels'` and compare it against 20.
This is where a missing column or a malformed numeric cell finally
errors. -/
def stockRiskColumn (f : CSVFile) : Except String (List Bool) := do
  let col ← getCol f "Stock levels"
  col.mapM (fun c => cellLt c 20)

/-- The ordering the stable descending revenue sort establishes between
two indexed rows: strictly more revenue first, and within equal revenue
the smaller original index first. -/
def revRel (a b : ℕ × Record) : Prop :=
  b.2.revenueGenerated < a.2.revenueGenerated ∨
    (a.2.revenueGenerated = b.2.revenueGenerated ∧ a.1 < b.1)

/-- A template record for concrete test tables: no risk triggers, a
passing inspection, constant costs. -/
def baseRec (sk : String) : Record :=
  { sku := sk
    productType := "apparel"
    supplierName := "S1"
    location := "L1"
    revenueGenerated := 0
    numberSold := 0
    stockLevels := 50
    leadTimes := 1
    leadTime := 1
    defectRates := 0
    manufacturingCosts := 10
    productionVolumes := 0
    inspectionResults := "Pass"
    shippingCarriers := "C1"
    shippingTimes := 1
    shippingCosts := 1
    transportationModes := "Road"
    routes := "R1"
    costs := 10
    availability := 100 }

/-- The spec's worked example: three records with stock levels 5, 25,
100, zero defect rates, all inspections passing, constant `'Costs'`
(so no cost outlier: the sample standard deviation is 0). -/
def exLowStock : List Record :=
  [{ baseRec "SKU0" with stockLevels := 5 },
   { baseRec "SKU1" with stockLevels := 25 },
   { baseRec "SKU2" with stockLevels := 100 }]

/-- The single recommendation the worked example must produce. -/
def adviceLowStock1 : Advice :=
  { area := "Inventory"
    issue := "Low stock alerts for 1 SKUs"
    act := "Reorder stocks for affected SKUs"
    priority := "High" }

/-- Two records whose product types first appear in the order
`"b"`, `"a"`: separates first-appearance key order from sorted key
order. -/
def exKeyOrder : List Record :=
  [{ baseRec "K0" with productType := "b" },
   { baseRec "K1" with productType := "a" }]

/-- A record with zero revenue and zero manufacturing cost: the
cost-effectiveness division is `0/0`. -/
def exZeroCost : Record :=
  { baseRec "Z0" with revenueGenerated := 0, manufacturingCosts := 0 }

/-- A parseable CSV file lacking the required `'Stock levels'` column. -/
def csvMissingStock : CSVFile :=
  { header := ["SKU"]
    cells := [[Cell.str "SKU0"]] }

/-- A parseable CSV file whose `'Stock levels'` cell is not numeric. -/
def csvBadNumeric : CSVFile :=
  { header := ["SKU", "Stock levels"]
    cells := [[Cell.str "SKU0", Cell.str "n/a"]] }

/-! Order lemmas for the code-point comparators. -/

theorem charListLtB_asymm :
    ∀ a b : List Char, charListLtB a b = true → charListLtB b a = false := by
  intro a
  induction a with
  | nil =>
    intro b h
    cases b with
    | nil => simp [charListLtB] at h
    | cons y ys => simp [charListLtB]
  | cons x xs ih =>
    intro b h
    cases b with
    | nil => simp [charListLtB] at h
    | cons y ys =>
      simp only [charListLtB] at h ⊢
      rcases Nat.lt_trichotomy x.toNat y.toNat with hxy | hxy | hxy
      · rw [if_neg (by omega), if_pos hxy]
      · rw [if_neg (by omega), if_neg (by omega)] at h ⊢
        exact ih ys h
      · rw [if_neg (by omega), if_pos hxy] at h
        cases h

theorem charListLtB_trans :
    ∀ a b c : List Char, charListLtB a b = true → charListLtB b c = true →
      charListLtB a c = true := by
  intro a
  induction a with
  | nil =>
    intro b c hab hbc
    cases b with
    | nil => simp [charListLtB] at hab
    | cons y ys =>
      cases c with
      | nil => simp [charListLtB] at hbc
      | cons z zs => simp [charListLtB]
  | cons x xs ih =>
    intro b c hab hbc
    cases b with
    | nil => simp [charListLtB] at hab
    | cons y ys =>
      cases c with
      | nil => simp [charListLtB] at hbc
      | cons z zs =>
        simp only [charListLtB] at hab hbc ⊢
        rcases Nat.lt_trichotomy x.toNat y.toNat with hxy | hxy | hxy
        · rcases Nat.lt_trichotomy y.toNat z.toNat with hyz | hyz | hyz
          · rw [if_pos (by omega)]
          · rw [if_pos (by omega)]
          · rw [if_neg (by omega), if_pos hyz] at hbc
            cases hbc
        · rw [if_neg (by omega), if_neg (by omega)] at hab
          rcases Nat.lt_trichotomy y.toNat z.toNat with hyz | hyz | hyz
          · rw [if_pos (by omega)]
          · rw [if_neg (by omega), if_neg (by omega)] at hbc ⊢
            exact ih ys zs hab hbc
          · rw [if_neg (by omega), if_pos hyz] at hbc
            cases hbc
        · rw [if_neg (by omega), if_pos hxy] at hab
          cases hab

theorem charListLtB_eq_of_not :
    ∀ a b : List Char, charListLtB a b = false → charListLtB b a = false → a = b := by
  intro a
  induction a with
  | nil =>
    intro b hab _
    cases b with
    | nil => rfl
    | cons y ys => simp [charListLtB] at hab
  | cons x xs ih =>
    intro b hab hba
    cases b with
    | nil => simp [charListLtB] at hba
    | cons y ys =>
      simp only [charListLtB] at hab hba
      rcases Nat.lt_trichotomy x.toNat y.toNat with hxy | hxy | hxy
      · rw [if_pos hxy] at hab
        cases hab
      · rw [if_neg (by omega), if_neg (by omega)] at hab hba
        have hx : x = y := Char.eq_of_val_eq (UInt32.ext hxy)
        rw [hx, ih ys hab hba]
      · rw [if_pos hxy] at hba
        cases hba

theorem strLtB_asymm (a b : String) (h : strLtB a b = true) : strLtB b a = false :=
  charListLtB_asymm a.data b.data h

theorem strLtB_trans (a b c : String) (h1 : strLtB a b = true) (h2 : strLtB b c = true) :
    strLtB a c = true :=
  charListLtB_trans a.data b.data c.data h1 h2

theorem strLtB_eq_of_not (a b : String) (h1 : strLtB a b = false)
    (h2 : strLtB b a = false) : a = b := by
  cases a with
  | mk da =>
    cases b with
    | mk db => exact congrArg String.mk (charListLtB_eq_of_not da db h1 h2)

theorem ltB_not_total {α : Type} {lt : α → α → Bool}
    (hasym : ∀ a b, lt a b = true → lt b a = false) (a b : α) :
    (!(lt b a)) = true ∨ (!(lt a b)) = true := by
  cases h : lt b a with
  | false => left; simp
  | true => right; simp [hasym _ _ h]

theorem ltB_not_trans {α : Type} {lt : α → α → Bool}
    (htrans : ∀ a b c, lt a b = true → lt b c = true → lt a c = true)
    (heq : ∀ a b, lt a b = false → lt b a = false → a = b)
    (a b c : α) (h1 : (!(lt b a)) = true) (h2 : (!(lt c b)) = true) :
    (!(lt c a)) = true := by
  simp only [Bool.not_eq_true'] at h1 h2 ⊢
  cases hca : lt c a with
  | false => rfl
  | true =>
    cases hbc : lt b c with
    | true =>
      rw [htrans b c a hbc hca] at h1
      cases h1
    | false =>
      have hb : b = c := heq b c hbc h2
      rw [hb, hca] at h1
      cases h1

theorem strLeB_total (a b : String) : strLeB a b = true ∨ strLeB b a = true :=
  ltB_not_total strLtB_asymm a b

theorem strLeB_trans (a b c : String) (h1 : strLeB a b = true) (h2 : strLeB b c = true) :
    strLeB a c = true :=
  ltB_not_trans strLtB_trans strLtB_eq_of_not a b c h1 h2

theorem pairLtB_asymm (a b : String × String) (h : pairLtB a b = true) :
    pairLtB b a = false := by
  cases h1 : strLtB a.1 b.1 with
  | true => simp [pairLtB, h1, strLtB_asymm _ _ h1]
  | false =>
    cases h2 : strLtB b.1 a.1 with
    | true => simp [pairLtB, h1, h2] at h
    | false =>
      simp only [pairLtB, h1, h2] at h
      simp [pairLtB, h1, h2, strLtB_asymm _ _ h]

theorem pairLtB_trans (a b c : String × String) (h1 : pairLtB a b = true)
    (h2 : pairLtB b c = true) : pairLtB a c = true := by
  cases hab1 : strLtB a.1 b.1 with
  | true =>
    cases hbc1 : strLtB b.1 c.1 with
    | true => simp [pairLtB, strLtB_trans _ _ _ hab1 hbc1]
    | false =>
      cases hcb1 : strLtB c.1 b.1 with
      | true => simp [pairLtB, hbc1, hcb1] at h2
      | false =>
        have hbc : b.1 = c.1 := strLtB_eq_of_not _ _ hbc1 hcb1
        rw [hbc] at hab1
        simp [pairLtB, hab1]
  | false =>
    cases hba1 : strLtB b.1 a.1 with
    | true => simp [pairLtB, hab1, hba1] at h1
    | false =>
      have hab : a.1 = b.1 := strLtB_eq_of_not _ _ hab1 hba1
      simp only [pairLtB, hab1, hba1, if_false] at h1
      cases hbc1 : strLtB b.1 c.1 with
      | true =>
        have : strLtB a.1 c.1 = true := by rw [hab]; exact hbc1
        simp [pairLtB, this]
      | false =>
        cases hcb1 : strLtB c.1 b.1 with
        | true => simp [pairLtB, hbc1, hcb1] at h2
        | false =>
          have hbc : b.1 = c.1 := strLtB_eq_of_not _ _ hbc1 hcb1
          simp only [pairLtB, hbc1, hcb1, if_false] at h2
          have hac1 : strLtB a.1 c.1 = false := by rw [hab]; exact hbc1
          have hca1 : strLtB c.1 a.1 = false := by rw [← hab] at hcb1; exact hcb1
          simp [pairLtB, hac1, hca1, strLtB_trans _ _ _ h1 h2]

theorem pairLtB_eq_of_not (a b : String × String) (h1 : pairLtB a b = false)
    (h2 : pairLtB b a = false) : a = b := by
  cases hab1 : strLtB a.1 b.1 with
  | true => simp [pairLtB, hab1] at h1
  | false =>
    cases hba1 : strLtB b.1 a.1 with
    | true => simp [pairLtB, hba1] at h2
    | false =>
      have hfst : a.1 = b.1 := strLtB_eq_of_not _ _ hab1 hba1
      simp only [pairLtB, hab1, hba1, if_false] at h1 h2
      have hsnd : a.2 = b.2 := strLtB_eq_of_not _ _ h1 h2
      exact Prod.ext hfst hsnd

theorem pairLeB_total (a b : String × String) : pairLeB a b = true ∨ pairLeB b a = true :=
  ltB_not_total pairLtB_asymm a b

theorem pairLeB_trans (a b c : String × String) (h1 : pairLeB a b = true)
    (h2 : pairLeB b c = true) : pairLeB a c = true :=
  ltB_not_trans pairLtB_trans pairLtB_eq_of_not a b c h1 h2

/-! Insertion sort and first-appearance deduplication. -/

theorem mem_insertLe (le : α → α → Bool) (x : α) :
    ∀ (l : List α) (a : α), a ∈ insertLe le x l ↔ a = x ∨ a ∈ l := by
  intro l
  induction l with
  | nil => intro a; simp [insertLe]
  | cons y ys ih =>
    intro a
    by_cases h : le x y = true
    · simp only [insertLe, if_pos h, List.mem_cons]
    · simp only [insertLe, if_neg h, List.mem_cons, ih]
      tauto

theorem insertLe_perm (le : α → α → Bool) (x : α) :
    ∀ l : List α, List.Perm (insertLe le x l) (x :: l) := by
  intro l
  induction l with
  | nil => simp [insertLe]
  | cons y ys ih =>
    by_cases h : le x y = true
    · simp [insertLe, if_pos h]
    · simp only [insertLe, if_neg h]
      exact List.Perm.trans (List.Perm.cons y ih) (List.Perm.swap x y ys)

theorem insortLe_perm (le : α → α → Bool) :
    ∀ l : List α, List.Perm (insortLe le l) l := by
  intro l
  induction l with
  | nil => simp [insortLe]
  | cons x xs ih =>
    simp only [insortLe]
    exact List.Perm.trans (insertLe_perm le x (insortLe le xs)) (List.Perm.cons x ih)

theorem mem_insortLe (le : α → α → Bool) (l : List α) (a : α) :
    a ∈ insortLe le l ↔ a ∈ l :=
  (insortLe_perm le l).mem_iff

theorem pairwise_insertLe (le : α → α → Bool)
    (htot : ∀ a b, le a b = true ∨ le b a = true)
    (htrans : ∀ a b c, le a b = true → le b c = true → le a c = true)
    (x : α) :
    ∀ l : List α, l.Pairwise (fun a b => le a b = true) →
      (insertLe le x l).Pairwise (fun a b => le a b = true) := by
  intro l
  induction l with
  | nil => intro _; simp [insertLe]
  | cons y ys ih =>
    intro hp
    rw [List.pairwise_cons] at hp
    obtain ⟨hy, hys⟩ := hp
    by_cases h : le x y = true
    · simp only [insertLe, if_pos h]
      rw [List.pairwise_cons]
      refine ⟨fun z hz => ?_, List.pairwise_cons.mpr ⟨hy, hys⟩⟩
      rcases List.mem_cons.mp hz with rfl | hz'
      · exact h
      · exact htrans x y z h (hy z hz')
    · have hyx : le y x = true := (htot x y).resolve_left h
      simp only [insertLe, if_neg h]
      rw [List.pairwise_cons]
      refine ⟨fun z hz => ?_, ih hys⟩
      rcases (mem_insertLe le x ys z).mp hz with rfl | hz'
      · exact hyx
      · exact hy z hz'

theorem pairwise_insortLe (le : α → α → Bool)
    (htot : ∀ a b, le a b = true ∨ le b a = true)
    (htrans : ∀ a b c, le a b = true → le b c = true → le a c = true) :
    ∀ l : List α, (insortLe le l).Pairwise (fun a b => le a b = true) := by
  intro l
  induction l with
  | nil => simp [insortLe]
  | cons x xs ih =>
    simp only [insortLe]
    exact pairwise_insertLe le htot htrans x (insortLe le xs) ih

theorem mem_dedupFirstAux [DecidableEq α] :
    ∀ (l seen : List α) (x : α), x ∈ dedupFirstAux seen l ↔ x ∈ l ∧ x ∉ seen := by
  intro l
  induction l with
  | nil => intro seen x; simp [dedupFirstAux]
  | cons y ys ih =>
    intro seen x
    by_cases h : y ∈ seen
    · simp only [dedupFirstAux, if_pos h, ih, List.mem_cons]
      constructor
      · rintro ⟨hx, hn⟩; exact ⟨Or.inr hx, hn⟩
      · rintro ⟨hor, hn⟩
        rcases hor with rfl | hx
        · exact absurd h hn
        · exact ⟨hx, hn⟩
    · simp only [dedupFirstAux, if_neg h, List.mem_cons, ih]
      constructor
      · rintro (rfl | ⟨hx, hn⟩)
        · exact ⟨Or.inl rfl, h⟩
        · exact ⟨Or.inr hx, fun hs => hn (Or.inr hs)⟩
      · rintro ⟨hor, hn⟩
        rcases hor with rfl | hx
        · exact Or.inl rfl
        · by_cases hxy : x = y
          · exact Or.inl hxy
          · exact Or.inr ⟨hx, fun hs => hs.elim hxy hn⟩

theorem mem_dedupFirst [DecidableEq α] (l : List α) (x : α) :
    x ∈ dedupFirst l ↔ x ∈ l := by
  simp [dedupFirst, mem_dedupFirstAux]

theorem nodup_dedupFirstAux [DecidableEq α] :
    ∀ (l seen : List α), (dedupFirstAux seen l).Nodup := by
  intro l
  induction l with
  | nil => intro seen; simp [dedupFirstAux]
  | cons y ys ih =>
    intro seen
    by_cases h : y ∈ seen
    · simp only [dedupFirstAux, if_pos h]
      exact ih seen
    · simp only [dedupFirstAux, if_neg h]
      rw [List.nodup_cons]
      refine ⟨fun hy => ?_, ih _⟩
      rw [mem_dedupFirstAux] at hy
      exact hy.2 (List.mem_cons_self y seen)

theorem groupKeysBy_spec [DecidableEq α] (le : α → α → Bool)
    (htot : ∀ a b, le a b = true ∨ le b a = true)
    (htrans : ∀ a b c, le a b = true → le b c = true → le a c = true)
    (vals : List α) :
    (∀ k, k ∈ groupKeysBy le vals ↔ k ∈ vals) ∧
      (groupKeysBy le vals).Nodup ∧
      (groupKeysBy le vals).Pairwise (fun a b => le a b = true) := by
  refine ⟨fun k => ?_, ?_, ?_⟩
  · rw [groupKeysBy, mem_insortLe, mem_dedupFirst]
  · exact ((insortLe_perm le (dedupFirst vals)).nodup_iff).mpr (nodup_dedupFirstAux vals [])
  · exact pairwise_insortLe le htot htrans (dedupFirst vals)

/-! The stable descending sort behind `nlargest`. -/

theorem revRel_iff (a b : ℕ × Record) :
    revRel a b ↔
      (b.2.revenueGenerated < a.2.revenueGenerated ∨
        (a.2.revenueGenerated = b.2.revenueGenerated ∧ a.1 < b.1)) :=
  Iff.rfl

theorem mem_insertTopRev (x : ℕ × Record) :
    ∀ (l : List (ℕ × Record)) (z : ℕ × Record),
      z ∈ insertTopRev x l ↔ z = x ∨ z ∈ l := by
  intro l
  induction l with
  | nil => intro z; simp [insertTopRev]
  | cons y ys ih =>
    intro z
    by_cases h : y.2.revenueGenerated < x.2.revenueGenerated
    · simp only [insertTopRev, if_pos h, List.mem_cons]
    · simp only [insertTopRev, if_neg h, List.mem_cons, ih]
      tauto

theorem mem_sortRevDescAux :
    ∀ (l acc : List (ℕ × Record)) (z : ℕ × Record),
      z ∈ sortRevDescAux acc l ↔ z ∈ acc ∨ z ∈ l := by
  intro l
  induction l with
  | nil => intro acc z; simp [sortRevDescAux]
  | cons x xs ih =>
    intro acc z
    simp only [sortRevDescAux, ih, mem_insertTopRev, List.mem_cons]
    tauto

theorem pairwise_insertTopRev (x : ℕ × Record) :
    ∀ l : List (ℕ × Record), l.Pairwise revRel → (∀ y ∈ l, y.1 < x.1) →
      (insertTopRev x l).Pairwise revRel := by
  intro l
  induction l with
  | nil => intro _ _; simp [insertTopRev]
  | cons y ys ih =>
    intro hp hidx
    rw [List.pairwise_cons] at hp
    obtain ⟨hy, hys⟩ := hp
    by_cases h : y.2.revenueGenerated < x.2.revenueGenerated
    · simp only [insertTopRev, if_pos h]
      rw [List.pairwise_cons]
      refine ⟨fun z hz => ?_, List.pairwise_cons.mpr ⟨hy, hys⟩⟩
      rcases List.mem_cons.mp hz with rfl | hz'
      · exact Or.inl h
      · rcases (revRel_iff y z).mp (hy z hz') with hlt | ⟨heq, _⟩
        · exact Or.inl (lt_trans hlt h)
        · exact Or.inl (heq ▸ h)
    · simp only [insertTopRev, if_neg h]
      rw [List.pairwise_cons]
      refine ⟨fun z hz => ?_,
        ih hys (fun y' hy' => hidx y' (List.mem_cons.mpr (Or.inr hy')))⟩
      rcases (mem_insertTopRev x ys z).mp hz with rfl | hz'
      · rcases lt_or_eq_of_le (le_of_not_lt h) with hlt | heq
        · exact Or.inl hlt
        · exact Or.inr ⟨heq.symm, hidx y (List.mem_cons_self y ys)⟩
      · exact hy z hz'

theorem pairwise_sortRevDescAux :
    ∀ (l acc : List (ℕ × Record)),
      acc.Pairwise revRel →
      (∀ y ∈ acc, ∀ x ∈ l, y.1 < x.1) →
      l.Pairwise (fun a b => a.1 < b.1) →
      (sortRevDescAux acc l).Pairwise revRel := by
  intro l
  induction l with
  | nil =>
    intro acc hacc _ _
    simpa [sortRevDescAux] using hacc
  | cons x xs ih =>
    intro acc hacc hsep hl
    rw [List.pairwise_cons] at hl
    obtain ⟨hx, hxs⟩ := hl
    simp only [sortRevDescAux]
    apply ih
    · exact pairwise_insertTopRev x acc hacc
        (fun y hy => hsep y hy x (List.mem_cons_self x xs))
    · intro y hy z hz
      rcases (mem_insertTopRev x acc y).mp hy with rfl | hy'
      · exact hx z hz
      · exact hsep y hy' z (List.mem_cons.mpr (Or.inr hz))
    · exact hxs

theorem enum_pairwise_fst (rows : List Record) :
    rows.enum.Pairwise (fun a b => a.1 < b.1) := by
  have h := List.pairwise_lt_range rows.length
  rw [← List.enum_map_fst rows] at h
  exact (List.pairwise_map).mp h

theorem pairwise_nlargestRev (rows : List Record) :
    (nlargestRev rows).Pairwise revRel := by
  have h := pairwise_sortRevDescAux rows.enum [] (List.Pairwise.nil)
    (by intro y hy; cases hy) (enum_pairwise_fst rows)
  exact List.Pairwise.sublist (List.take_sublist 10 _) h

/-! Method-sequence lemmas for the engine state. -/

theorem stepOp_data (s : AnalyzerState) (op : AnalyzerOp) : (stepOp s op).data = s.data := by
  cases op <;> rfl

theorem runOps_data (s : AnalyzerState) :
    ∀ ops : List AnalyzerOp, (runOps s ops).data = s.data := by
  intro ops
  induction ops generalizing s with
  | nil => rfl
  | cons op ops ih => rw [runOps, ih, stepOp_data]

theorem runOps_product_slot (s : AnalyzerState) :
    ∀ ops : List AnalyzerOp,
      (runOps s ops).product_metrics =
        if AnalyzerOp.product ∈ ops then some (computeProductMetrics s.data)
        else s.product_metrics := by
  intro ops
  induction ops generalizing s with
  | nil => simp [runOps]
  | cons op ops ih =>
    rw [runOps, ih, stepOp_data]
    cases op <;> simp [stepOp, List.mem_cons, analyze_product_performance,
      analyze_supplier_performance, analyze_logistics, get_risk_assessment_m,
      generate_recommendations_m]

theorem runOps_supplier_slot (s : AnalyzerState) :
    ∀ ops : List AnalyzerOp,
      (runOps s ops).supplier_metrics =
        if AnalyzerOp.supplier ∈ ops then some (computeSupplierMetrics s.data)
        else s.supplier_metrics := by
  intro ops
  induction ops generalizing s with
  | nil => simp [runOps]
  | cons op ops ih =>
    rw [runOps, ih, stepOp_data]
    cases op <;> simp [stepOp, List.mem_cons, analyze_product_performance,
      analyze_supplier_performance, analyze_logistics, get_risk_assessment_m,
      generate_recommendations_m]

theorem runOps_logistics_slot (s : AnalyzerState) :
    ∀ ops : List AnalyzerOp,
      (runOps s ops).logistics_metrics =
        if AnalyzerOp.logistics ∈ ops then some (computeLogisticsMetrics s.data)
        else s.logistics_metrics := by
  intro ops
  induction ops generalizing s with
  | nil => simp [runOps]
  | cons op ops ih =>
    rw [runOps, ih, stepOp_data]
    cases op <;> simp [stepOp, List.mem_cons, analyze_product_performance,
      analyze_supplier_performance, analyze_logistics, get_risk_assessment_m,
      generate_recommendations_m]

/-! Small helper facts. -/

theorem bool4_count :
    ∀ b1 b2 b3 b4 : Bool,
      b1.toNat + b2.toNat + b3.toNat + b4.toNat = [b1, b2, b3, b4].count true := by
  decide

theorem bool4_le4 :
    ∀ b1 b2 b3 b4 : Bool, b1.toNat + b2.toNat + b3.toNat + b4.toNat ≤ 4 := by
  decide

theorem mem_ite_nil_singleton {α : Type} {c : Prop} [Decidable c] {x e : α}
    (h : e ∈ (if c then ([] : List α) else [x])) : e = x := by
  by_cases hc : c
  · rw [if_pos hc] at h
    exact absurd h (List.not_mem_nil e)
  · rw [if_neg hc] at h
    exact List.mem_singleton.mp h

theorem category_keys_eq (rows : List Record) :
    (category_performance rows).map CategoryRow.productType =
      groupKeysBy strLeB (rows.map Record.productType) := by
  simp [category_performance, List.map_map, Function.comp_def]

theorem supplier_keys_eq (rows : List Record) :
    (supplier_performance rows).map SupplierRow.supplierName =
      groupKeysBy strLeB (rows.map Record.supplierName) := by
  simp [supplier_performance, List.map_map, Function.comp_def]

theorem carrier_keys_eq (rows : List Record) :
    (carrier_performance rows).map CarrierRow.carrier =
      groupKeysBy strLeB (rows.map Record.shippingCarriers) := by
  simp [carrier_performance, List.map_map, Function.comp_def]

theorem route_keys_eq (rows : List Record) :
    (route_efficiency rows).map RouteRow.route =
      groupKeysBy strLeB (rows.map Record.routes) := by
  simp [route_efficiency, List.map_map, Function.comp_def]

theorem transport_keys_eq (rows : List Record) :
    (transport_cost_analysis rows).map (fun t => (t.mode, t.route)) =
      groupKeysBy pairLeB (rows.map (fun r => (r.transportationModes, r.routes))) := by
  simp [transport_cost_analysis, List.map_map, Function.comp_def]

/-! The claims. -/

/-- Claim C1: `get_risk_assessment` evaluates exactly four boolean
predicates per record with strict comparisons — stock level below 20,
lead time above 20, defect rate above 3, manufacturing cost above the
dataset mean — sets `Total_Risk_Score` to the count of true predicates
(hence between 0 and 4; the lower bound holds as the score is a `ℕ`),
and returns exactly the rows with score at least 2, as an
order-preserving sublist of the per-record risk table. -/
theorem claim1_risk_scoring :
    (∀ (μ : ℚ) (r : Record),
        ((mkRiskRow μ r).stockRisk = true ↔ r.stockLevels < 20) ∧
        ((mkRiskRow μ r).leadTimeRisk = true ↔ 20 < r.leadTime) ∧
        ((mkRiskRow μ r).qualityRisk = true ↔ 3 < r.defectRates) ∧
        ((mkRiskRow μ r).costRisk = true ↔ μ < r.manufacturingCosts) ∧
        (mkRiskRow μ r).totalRiskScore =
          [(mkRiskRow μ r).stockRisk, (mkRiskRow μ r).leadTimeRisk,
            (mkRiskRow μ r).qualityRisk, (mkRiskRow μ r).costRisk].count true ∧
        (mkRiskRow μ r).totalRiskScore ≤ 4) ∧
    (∀ rows : List Record,
        List.Sublist (get_risk_assessment rows)
          (rows.map (mkRiskRow (meanQ (rows.map Record.manufacturingCosts)))) ∧
        (∀ x : RiskRow, x ∈ get_risk_assessment rows ↔
          x ∈ rows.map (mkRiskRow (meanQ (rows.map Record.manufacturingCosts))) ∧
            2 ≤ x.totalRiskScore)) := by
  constructor
  · intro μ r
    refine ⟨by simp [mkRiskRow], by simp [mkRiskRow], by simp [mkRiskRow],
      by simp [mkRiskRow], ?_, ?_⟩
    · simp only [mkRiskRow]
      exact bool4_count _ _ _ _
    · simp only [mkRiskRow]
      exact bool4_le4 _ _ _ _
  · intro rows
    refine ⟨List.filter_sublist _, fun x => ?_⟩
    simp [get_risk_assessment, List.mem_filter]

/-- Claim C2: `generate_recommendations` evaluates its three rules
independently, returns the empty list exactly when no rule triggers,
embeds the live count of matching records in each emitted issue text,
and on the worked 3-record dataset (stock levels 5, 25, 100, no failing
inspection, no cost outlier) returns exactly one Inventory entry whose
issue reads "Low stock alerts for 1 SKUs". -/
theorem claim2_recommendations :
    (∀ rows : List Record,
        generate_recommendations rows = [] ↔
          lowStockRows rows = [] ∧ failedRows rows = [] ∧ highCostRows rows = []) ∧
    (∀ (rows : List Record) (e : Advice),
        e ∈ generate_recommendations rows →
          (e.area = "Inventory" ∧
            e.issue = "Low stock alerts for " ++
              toString (lowStockRows rows).length ++ " SKUs") ∨
          (e.area = "Quality" ∧
            e.issue = "Quality failures in " ++
              toString (failedRows rows).length ++ " shipments") ∨
          (e.area = "Logistics" ∧
            e.issue = "High shipping costs on " ++
              toString (highCostRows rows).length ++ " routes")) ∧
    generate_recommendations exLowStock = [adviceLowStock1] ∧
    lowStockRows exLowStock = [{ baseRec "SKU0" with stockLevels := 5 }] := by
  refine ⟨fun rows => ?_, fun rows e he => ?_, ?_, ?_⟩
  · cases h1 : (lowStockRows rows).isEmpty <;>
      cases h2 : (failedRows rows).isEmpty <;>
      cases h3 : (highCostRows rows).isEmpty <;>
      simp [generate_recommendations, h1, h2, h3, ← List.isEmpty_iff]
  · simp only [generate_recommendations] at he
    rcases List.mem_append.mp he with h12 | h3
    · rcases List.mem_append.mp h12 with h1 | h2
      · have hx := mem_ite_nil_singleton h1
        subst hx
        exact Or.inl ⟨rfl, rfl⟩
      · have hx := mem_ite_nil_singleton h2
        subst hx
        exact Or.inr (Or.inl ⟨rfl, rfl⟩)
    · have hx := mem_ite_nil_singleton h3
      subst hx
      exact Or.inr (Or.inr ⟨rfl, rfl⟩)
  · norm_num [generate_recommendations, lowStockRows, failedRows, highCostRows,
      costOutlierB, devSq, meanQ, exLowStock, baseRec, adviceLowStock1, List.filter]
    decide
  · norm_num [lowStockRows, exLowStock, baseRec, List.filter]

/-- Claim C4 is refuted here: a present, parseable file that lacks the
required column `'Stock levels'` loads successfully (no load-time
error), and the missing column only errors later, when an analysis
method subscripts it. -/
theorem claim4_counterexample :
    loadOk (read_csv (some csvMissingStock)) = true ∧
    stockRiskColumn csvMissingStock = Except.error "KeyError: Stock levels" :=
  ⟨rfl, rfl⟩

/-- Claim C4, amended: construction fails if and only if the input file
is missing or unreadable; `read_csv` validates no required column and
rejects no malformed numeric cell — a missing column raises `KeyError`
and a non-numeric cell raises `TypeError` only when an analysis method
first touches the column; after a load failure no instance exists, so
no analysis proceeds. -/
theorem claim4_load_validation :
    (∀ file : Option CSVFile, loadOk (read_csv file) = file.isSome) ∧
    read_csv (none : Option CSVFile) = Except.error "FileNotFoundError" ∧
    read_csv (some csvMissingStock) = Except.ok csvMissingStock ∧
    stockRiskColumn csvMissingStock = Except.error "KeyError: Stock levels" ∧
    read_csv (some csvBadNumeric) = Except.ok csvBadNumeric ∧
    stockRiskColumn csvBadNumeric = Except.error "TypeError" := by
  refine ⟨fun file => ?_, rfl, rfl, rfl, rfl, rfl⟩
  cases file <;> rfl

/-- Claim C5 is refuted here: on a table whose product types first
appear in the order "b", "a", the category table's grouping keys come
out sorted ascending ("a", "b"), not in insertion order of first
appearance ("b", "a"). -/
theorem claim5_counterexample :
    (category_performance exKeyOrder).map CategoryRow.productType = ["a", "b"] ∧
    dedupFirst (exKeyOrder.map Record.productType) = ["b", "a"] := by
  exact ⟨by decide, by decide⟩

/-- Claim C5, amended: every derived aggregation table's grouping keys
are exactly the distinct values present in its group-by source column —
no spurious or missing groups, no duplicates — and the keys appear in
ascending sorted order (pandas `groupby` sorts keys), not in insertion
order of first appearance. -/
theorem claim5_grouping_keys :
    ∀ rows : List Record,
      ((∀ k, k ∈ (category_performance rows).map CategoryRow.productType ↔
          k ∈ rows.map Record.productType) ∧
        ((category_performance rows).map CategoryRow.productType).Nodup ∧
        ((category_performance rows).map CategoryRow.productType).Pairwise
          (fun a b => strLeB a b = true)) ∧
      ((∀ k, k ∈ (supplier_performance rows).map SupplierRow.supplierName ↔
          k ∈ rows.map Record.supplierName) ∧
        ((supplier_performance rows).map SupplierRow.supplierName).Nodup ∧
        ((supplier_performance rows).map SupplierRow.supplierName).Pairwise
          (fun a b => strLeB a b = true)) ∧
      ((∀ k, k ∈ (carrier_performance rows).map CarrierRow.carrier ↔
          k ∈ rows.map Record.shippingCarriers) ∧
        ((carrier_performance rows).map CarrierRow.carrier).Nodup ∧
        ((carrier_performance rows).map CarrierRow.carrier).Pairwise
          (fun a b => strLeB a b = true)) ∧
      ((∀ k, k ∈ (route_efficiency rows).map RouteRow.route ↔
          k ∈ rows.map Record.routes) ∧
        ((route_efficiency rows).map RouteRow.route).Nodup ∧
        ((route_efficiency rows).map RouteRow.route).Pairwise
          (fun a b => strLeB a b = true)) ∧
      ((∀ k, k ∈ (transport_cost_analysis rows).map (fun t => (t.mode, t.route)) ↔
          k ∈ rows.map (fun r => (r.transportationModes, r.routes))) ∧
        ((transport_cost_analysis rows).map (fun t => (t.mode, t.route))).Nodup ∧
        ((transport_cost_analysis rows).map (fun t => (t.mode, t.route))).Pairwise
          (fun a b => pairLeB a b = true)) := by
  intro rows
  refine ⟨?_, ?_, ?_, ?_, ?_⟩
  · rw [category_keys_eq]
    exact groupKeysBy_spec strLeB strLeB_total strLeB_trans _
  · rw [supplier_keys_eq]
    exact groupKeysBy_spec strLeB strLeB_total strLeB_trans _
  · rw [carrier_keys_eq]
    exact groupKeysBy_spec strLeB strLeB_total strLeB_trans _
  · rw [route_keys_eq]
    exact groupKeysBy_spec strLeB strLeB_total strLeB_trans _
  · rw [transport_keys_eq]
    exact groupKeysBy_spec pairLeB pairLeB_total pairLeB_trans _

/-- Claim C3: after any sequence of engine operations on a freshly
loaded instance, `generate_summary_report` marks each of the three
aggregation slots with the explicit null marker exactly when the
corresponding analyze method never ran in the sequence, and with the
actual computed table when it did. -/
theorem claim3_summary_slots :
    ∀ (rows : List Record) (ops : List AnalyzerOp),
      (generate_summary_report (runOps (initAnalyzer rows) ops)).product_performance =
        (if AnalyzerOp.product ∈ ops then some (computeProductMetrics rows) else none) ∧
      (generate_summary_report (runOps (initAnalyzer rows) ops)).supplier_performance =
        (if AnalyzerOp.supplier ∈ ops then some (computeSupplierMetrics rows) else none) ∧
      (generate_summary_report (runOps (initAnalyzer rows) ops)).logistics_performance =
        (if AnalyzerOp.logistics ∈ ops then some (computeLogisticsMetrics rows) else none) := by
  intro rows ops
  refine ⟨?_, ?_, ?_⟩
  · by_cases h : AnalyzerOp.product ∈ ops <;>
      simp [generate_summary_report, runOps_product_slot, initAnalyzer,
        truthyOrNone, pmTruthy, h]
  · by_cases h : AnalyzerOp.supplier ∈ ops <;>
      simp [generate_summary_report, runOps_supplier_slot, initAnalyzer,
        truthyOrNone, smTruthy, h]
  · by_cases h : AnalyzerOp.logistics ∈ ops <;>
      simp [generate_summary_report, runOps_logistics_slot, initAnalyzer,
        truthyOrNone, lmTruthy, h]

/-- Claim C6: `top_revenue_products` has at most 10 rows, every row is
the projection of an input row (with its original index), the rows are
sorted by revenue descending, and rows of equal revenue keep their
original relative order (stable ties). -/
theorem claim6_top_revenue :
    ∀ rows : List Record,
      (top_revenue_products rows).length ≤ 10 ∧
      top_revenue_products rows ⊆ rows.enum.map (fun q => (q.1, toTopRow q.2)) ∧
      (top_revenue_products rows).Pairwise
        (fun a b => b.2.revenueGenerated ≤ a.2.revenueGenerated) ∧
      (top_revenue_products rows).Pairwise
        (fun a b => a.2.revenueGenerated = b.2.revenueGenerated → a.1 < b.1) := by
  intro rows
  have hpw := pairwise_nlargestRev rows
  refine ⟨?_, ?_, ?_, ?_⟩
  · rw [top_revenue_products, List.length_map, nlargestRev]
    exact List.length_take_le 10 _
  · intro p hp
    rw [top_revenue_products, List.mem_map] at hp
    obtain ⟨q, hq, rfl⟩ := hp
    have hq' : q ∈ sortRevDescAux [] rows.enum :=
      (List.take_sublist 10 _).subset hq
    have hq2 : q ∈ rows.enum :=
      ((mem_sortRevDescAux rows.enum [] q).mp hq').resolve_left (List.not_mem_nil q)
    exact List.mem_map.mpr ⟨q, hq2, rfl⟩
  · rw [top_revenue_products, List.pairwise_map]
    refine List.Pairwise.imp ?_ hpw
    intro a b hab
    rcases (revRel_iff a b).mp hab with h | ⟨h, _⟩
    · exact le_of_lt h
    · exact le_of_eq h.symm
  · rw [top_revenue_products, List.pairwise_map]
    refine List.Pairwise.imp ?_ hpw
    intro a b hab heq
    rcases (revRel_iff a b).mp hab with h | ⟨_, hidx⟩
    · exact absurd heq (ne_of_gt h)
    · exact hidx

/-- Claim C7: each analyze method invoked twice on an unchanged
instance stores identical derived-table contents both times — the
second call overwrites the slot with the same value, namely the table
computed from the (unchanged) input data. -/
theorem claim7_idempotent :
    ∀ s : AnalyzerState,
      (analyze_product_performance (analyze_product_performance s)).product_metrics =
        (analyze_product_performance s).product_metrics ∧
      (analyze_product_performance s).product_metrics =
        some (computeProductMetrics s.data) ∧
      (analyze_supplier_performance (analyze_supplier_performance s)).supplier_metrics =
        (analyze_supplier_performance s).supplier_metrics ∧
      (analyze_supplier_performance s).supplier_metrics =
        some (computeSupplierMetrics s.data) ∧
      (analyze_logistics (analyze_logistics s)).logistics_metrics =
        (analyze_logistics s).logistics_metrics ∧
      (analyze_logistics s).logistics_metrics =
        some (computeLogisticsMetrics s.data) := by
  intro s
  exact ⟨rfl, rfl, rfl, rfl, rfl, rfl⟩

/-- Claim C8: no engine operation mutates the loaded input table, and
each analyze method writes only its own derived-table slot, leaving the
other two slots unchanged. -/
theorem claim8_frame :
    ∀ (s : AnalyzerState) (op : AnalyzerOp),
      (stepOp s op).data = s.data ∧
      (analyze_product_performance s).supplier_metrics = s.supplier_metrics ∧
      (analyze_product_performance s).logistics_metrics = s.logistics_metrics ∧
      (analyze_supplier_performance s).product_metrics = s.product_metrics ∧
      (analyze_supplier_performance s).logistics_metrics = s.logistics_metrics ∧
      (analyze_logistics s).product_metrics = s.product_metrics ∧
      (analyze_logistics s).supplier_metrics = s.supplier_metrics := by
  intro s op
  exact ⟨stepOp_data s op, rfl, rfl, rfl, rfl, rfl, rfl⟩

/-- Claim C9 is refuted here: on a record with zero revenue and zero
manufacturing cost the source computes `0/0 = NaN`, which `clip`
propagates, so `cost_effectiveness` is `NaN` — not a value in
[0, 100]. -/
theorem claim9_counterexample :
    cost_effectiveness exZeroCost = FloatQ.nan := by
  norm_num [cost_effectiveness, divQ, clipF, exZeroCost, baseRec]

/-- Claim C9, amended: `efficiency_score` always lies in [0, 100] and
the score computation leaves every field of the record as loaded; but
`cost_effectiveness` is a finite value in [0, 100] only for the
records that do not have both zero revenue and zero manufacturing cost
— there the float division is `0/0` and the score is `NaN`, outside
the interval (a non-zero revenue over zero cost is a signed infinity,
which clip clamps back into [0, 100]). -/
theorem claim9_score_bounds :
    ∀ r : Record,
      0 ≤ efficiency_score r ∧ efficiency_score r ≤ 100 ∧
      (withDerivedScores r).1 = r ∧
      (¬(r.revenueGenerated = 0 ∧ r.manufacturingCosts = 0) →
        ∃ q : ℚ, cost_effectiveness r = FloatQ.val q ∧ 0 ≤ q ∧ q ≤ 100) ∧
      (r.revenueGenerated = 0 ∧ r.manufacturingCosts = 0 →
        cost_effectiveness r = FloatQ.nan) := by
  intro r
  refine ⟨?_, ?_, rfl, ?_, ?_⟩
  · simp only [efficiency_score, clipQ]
    exact le_max_left 0 _
  · simp only [efficiency_score, clipQ]
    exact max_le (by norm_num) (min_le_left 100 _)
  · intro h
    by_cases hc : r.manufacturingCosts = 0
    · have hr : r.revenueGenerated ≠ 0 := fun h0 => h ⟨h0, hc⟩
      rcases lt_trichotomy r.revenueGenerated 0 with hneg | h0 | hpos
      · refine ⟨0, ?_, le_refl 0, by norm_num⟩
        simp [cost_effectiveness, divQ, clipF, hc, hneg, lt_asymm hneg]
      · exact absurd h0 hr
      · refine ⟨100, ?_, by norm_num, le_refl 100⟩
        simp [cost_effectiveness, divQ, clipF, hc, hpos]
    · refine ⟨clipQ 0 100 (r.revenueGenerated / r.manufacturingCosts), ?_,
        le_max_left 0 _, max_le (by norm_num) (min_le_left 100 _)⟩
      simp [cost_effectiveness, divQ, clipF, hc]
  · rintro ⟨hrev, hc⟩
    simp [cost_effectiveness, divQ, clipF, hrev, hc]

/-- Claim C10: `get_risk_assessment` and `generate_recommendations` are
pure queries: each returns its value computed from the input table and
leaves the instance unchanged, so a subsequent summary report is
unaffected by either call. -/
theorem claim10_pure_queries :
    ∀ s : AnalyzerState,
      (get_risk_assessment_m s).1 = get_risk_assessment s.data ∧
      (get_risk_assessment_m s).2 = s ∧
      (generate_recommendations_m s).1 = generate_recommendations s.data ∧
      (generate_recommendations_m s).2 = s ∧
      generate_summary_report (get_risk_assessment_m s).2 = generate_summary_report s ∧
      generate_summary_report (generate_recommendations_m s).2 = generate_summary_report s := by
  intro s
  exact ⟨rfl, rfl, rfl, rfl, rfl, rfl⟩

end SupplyChain
